import Mathlib

/-!
Verification development for the LexiHub Lead Discovery Agent pipeline.

The definitions below are a shallow embedding of the pipeline code in
`src/services/geminiService.ts` and `src/components/KnowledgeBase.tsx`.
Network calls are modelled by environment records that fix the outcome of
each external provider call (post-retry); everything else is translated
directly from the source.
-/

/-- JavaScript whitespace set used by `String.prototype.trim`
(WhiteSpace plus LineTerminator code points). -/
def isJsWhitespace (c : Char) : Bool :=
  let n := c.toNat
  n = 9 || n = 10 || n = 11 || n = 12 || n = 13 || n = 32 || n = 0xA0 || n = 0x1680 ||
  (0x2000 ≤ n && n ≤ 0x200A) || n = 0x2028 || n = 0x2029 || n = 0x202F ||
  n = 0x205F || n = 0x3000 || n = 0xFEFF

/-- Model of JavaScript `s.trim()`. -/
def jsTrim (s : String) : String :=
  ⟨((s.data.dropWhile isJsWhitespace).reverse.dropWhile isJsWhitespace).reverse⟩

/-- Truthiness test `!s.trim()` guarding `handleAgentSearch`
(KnowledgeBase.tsx line 64): true iff the query is empty or whitespace-only. -/
def jsBlank (q : String) : Bool := (jsTrim q).isEmpty

/-- Check that `pat` is a prefix of `l` (character lists). -/
def listPrefix : List Char → List Char → Bool
  | [], _ => true
  | _ :: _, [] => false
  | p :: ps, c :: cs => p = c && listPrefix ps cs

/-- Helper for `hasSubstr`: does `pat` occur in `l`? -/
def hasSubstrL (pat : List Char) : List Char → Bool
  | [] => listPrefix pat []
  | c :: t => listPrefix pat (c :: t) || hasSubstrL pat t

/-- Model of JavaScript `s.includes(pat)`. -/
def hasSubstr (s pat : String) : Bool := hasSubstrL pat.data s.data

/-- Consume `pat` from the front of `l`, returning the remainder. -/
def dropPrefixL : List Char → List Char → Option (List Char)
  | [], l => some l
  | _ :: _, [] => none
  | p :: ps, c :: cs => if p = c then dropPrefixL ps cs else none

/-- Model of JavaScript `s.substring(0, n)`: the first `n` characters. -/
def jsTruncate (s : String) (n : Nat) : String := ⟨s.data.take n⟩

/-- Left brace character (written via its code point). -/
def lbrace : Char := Char.ofNat 123

/-- Right brace character (written via its code point). -/
def rbrace : Char := Char.ofNat 125

/-- JSON value as produced by JavaScript `JSON.parse`; numbers keep their
source lexeme since no pipeline code inspects numeric values. -/
inductive Json where
  | null
  | bool (b : Bool)
  | num (lexeme : String)
  | str (s : String)
  | arr (elems : List Json)
  | obj (fields : List (String × Json))

/-- JSON whitespace skipping (space, tab, LF, CR). -/
def skipWs (l : List Char) : List Char :=
  l.dropWhile (fun c => c = ' ' || c = '\t' || c = '\n' || c = '\r')

/-- Value of a hexadecimal digit. -/
def hexVal (c : Char) : Option Nat :=
  if '0' ≤ c ∧ c ≤ '9' then some (c.toNat - 48)
  else if 'a' ≤ c ∧ c ≤ 'f' then some (c.toNat - 87)
  else if 'A' ≤ c ∧ c ≤ 'F' then some (c.toNat - 55)
  else none

/-- Parse a JSON string body (opening quote already consumed). -/
def parseStr : Nat → List Char → Option (String × List Char)
  | 0, _ => none
  | _ + 1, [] => none
  | fuel + 1, c :: rest =>
    if c = '"' then some ("", rest)
    else if c = '\\' then
      match rest with
      | [] => none
      | e :: r2 =>
        let esc : Option (Char × List Char) :=
          if e = '"' then some ('"', r2)
          else if e = '\\' then some ('\\', r2)
          else if e = '/' then some ('/', r2)
          else if e = 'b' then some (Char.ofNat 8, r2)
          else if e = 'f' then some (Char.ofNat 12, r2)
          else if e = 'n' then some ('\n', r2)
          else if e = 'r' then some ('\r', r2)
          else if e = 't' then some ('\t', r2)
          else if e = 'u' then
            match r2 with
            | h1 :: h2 :: h3 :: h4 :: r3 =>
              match hexVal h1, hexVal h2, hexVal h3, hexVal h4 with
              | some a, some b, some c2, some d =>
                  some (Char.ofNat (((a * 16 + b) * 16 + c2) * 16 + d), r3)
              | _, _, _, _ => none
            | _ => none
          else none
        match esc with
        | some (ch, r3) =>
          match parseStr fuel r3 with
          | some (s, r4) => some (⟨ch :: s.data⟩, r4)
          | none => none
        | none => none
    else if c.toNat < 32 then none
    else
      match parseStr fuel rest with
      | some (s, r4) => some (⟨c :: s.data⟩, r4)
      | none => none

/-- Parse an optional JSON fraction part. -/
def numFrac (l : List Char) : Option (List Char × List Char) :=
  match l with
  | '.' :: t =>
    let ds := t.takeWhile Char.isDigit
    if ds = [] then none else some ('.' :: ds, t.dropWhile Char.isDigit)
  | _ => some ([], l)

/-- Parse an optional JSON exponent part. -/
def numExp (l : List Char) : Option (List Char × List Char) :=
  match l with
  | c :: t =>
    if c = 'e' ∨ c = 'E' then
      let (sg, t2) : List Char × List Char :=
        match t with
        | s :: tt => if s = '+' ∨ s = '-' then ([s], tt) else ([], t)
        | [] => ([], t)
      let ds := t2.takeWhile Char.isDigit
      if ds = [] then none else some (c :: (sg ++ ds), t2.dropWhile Char.isDigit)
    else some ([], l)
  | [] => some ([], l)

/-- Fraction followed by exponent. -/
def numFracExp (l : List Char) : Option (List Char × List Char) :=
  match numFrac l with
  | none => none
  | some (f, r1) =>
    match numExp r1 with
    | none => none
    | some (e, r2) => some (f ++ e, r2)

/-- Parse a JSON number lexeme. -/
def parseNumL (l : List Char) : Option (List Char × List Char) :=
  let (sign, l1) : List Char × List Char :=
    match l with
    | c :: t => if c = '-' then (['-'], t) else ([], l)
    | [] => ([], l)
  match l1 with
  | [] => none
  | c :: t =>
    if c = '0' then
      match numFracExp t with
      | some (fe, r) => some (sign ++ '0' :: fe, r)
      | none => none
    else if c.isDigit then
      let ds := (c :: t).takeWhile Char.isDigit
      let r1 := (c :: t).dropWhile Char.isDigit
      match numFracExp r1 with
      | some (fe, r) => some (sign ++ ds ++ fe, r)
      | none => none
    else none

mutual

/-- Parse one JSON value (fuel-indexed; fuel bounds nesting and element count). -/
def parseVal : Nat → List Char → Option (Json × List Char)
  | 0, _ => none
  | fuel + 1, l =>
    match skipWs l with
    | [] => none
    | c :: rest =>
      if c = 'n' then
        match dropPrefixL "ull".data rest with
        | some r => some (.null, r)
        | none => none
      else if c = 't' then
        match dropPrefixL "rue".data rest with
        | some r => some (.bool true, r)
        | none => none
      else if c = 'f' then
        match dropPrefixL "alse".data rest with
        | some r => some (.bool false, r)
        | none => none
      else if c = '"' then
        match parseStr (rest.length + 1) rest with
        | some (s, r) => some (.str s, r)
        | none => none
      else if c = '[' then
        match skipWs rest with
        | ']' :: r2 => some (.arr [], r2)
        | l2 =>
          match parseVal fuel l2 with
          | some (j, r2) =>
            match parseArrRest fuel r2 with
            | some (js, r3) => some (.arr (j :: js), r3)
            | none => none
          | none => none
      else if c = lbrace then
        match skipWs rest with
        | [] => none
        | c2 :: r2 =>
          if c2 = rbrace then some (.obj [], r2)
          else
            match parseMember fuel (c2 :: r2) with
            | some (m, r3) =>
              match parseObjRest fuel r3 with
              | some (ms, r4) => some (.obj (m :: ms), r4)
              | none => none
            | none => none
      else if c = '-' ∨ c.isDigit then
        match parseNumL (c :: rest) with
        | some (lx, r) => some (.num ⟨lx⟩, r)
        | none => none
      else none

/-- Parse the remaining elements of a JSON array after the first. -/
def parseArrRest : Nat → List Char → Option (List Json × List Char)
  | 0, _ => none
  | fuel + 1, l =>
    match skipWs l with
    | [] => none
    | c :: rest =>
      if c = ']' then some ([], rest)
      else if c = ',' then
        match parseVal fuel rest with
        | some (j, r) =>
          match parseArrRest fuel r with
          | some (js, r2) => some (j :: js, r2)
          | none => none
        | none => none
      else none

/-- Parse one `"key": value` member of a JSON object. -/
def parseMember : Nat → List Char → Option ((String × Json) × List Char)
  | 0, _ => none
  | fuel + 1, l =>
    match skipWs l with
    | [] => none
    | c :: rest =>
      if c = '"' then
        match parseStr (rest.length + 1) rest with
        | some (k, r) =>
          match skipWs r with
          | ':' :: r2 =>
            match parseVal fuel r2 with
            | some (v, r3) => some ((k, v), r3)
            | none => none
          | _ => none
        | none => none
      else none

/-- Parse the remaining members of a JSON object after the first. -/
def parseObjRest : Nat → List Char → Option (List (String × Json) × List Char)
  | 0, _ => none
  | fuel + 1, l =>
    match skipWs l with
    | [] => none
    | c :: rest =>
      if c = rbrace then some ([], rest)
      else if c = ',' then
        match parseMember fuel rest with
        | some (m, r) =>
          match parseObjRest fuel r with
          | some (ms, r2) => some (m :: ms, r2)
          | none => none
        | none => none
      else none

end

/-- Model of JavaScript `JSON.parse`: parse one value and require only
trailing whitespace; any failure throws, modelled as `none`. -/
def Json.parse (s : String) : Option Json :=
  match parseVal (s.length + 2) s.data with
  | some (j, r) => if skipWs r = [] then some j else none
  | none => none

/-- Lower-case hex digit for string escaping. -/
def jsHexDigit (n : Nat) : Char :=
  if n < 10 then Char.ofNat (48 + n) else Char.ofNat (87 + n)

/-- Escape a single character the way `JSON.stringify` does. -/
def escJsonChar (c : Char) : List Char :=
  if c = '"' then ['\\', '"']
  else if c = '\\' then ['\\', '\\']
  else if c = '\n' then ['\\', 'n']
  else if c = '\r' then ['\\', 'r']
  else if c = '\t' then ['\\', 't']
  else if c.toNat = 8 then ['\\', 'b']
  else if c.toNat = 12 then ['\\', 'f']
  else if c.toNat < 32 then
    ['\\', 'u', '0', '0', jsHexDigit (c.toNat / 16), jsHexDigit (c.toNat % 16)]
  else [c]

/-- Escape every character of a list. -/
def escJsonList : List Char → List Char
  | [] => []
  | c :: t => escJsonChar c ++ escJsonList t

/-- Serialize a string as a quoted JSON string literal. -/
def Json.quoteStr (s : String) : String := ⟨'"' :: (escJsonList s.data ++ ['"'])⟩

mutual

/-- Model of JavaScript `JSON.stringify` (no spacing argument). -/
def Json.stringify : Json → String
  | .null => "null"
  | .bool true => "true"
  | .bool false => "false"
  | .num lx => lx
  | .str s => Json.quoteStr s
  | .arr xs => "[" ++ stringifyElems xs ++ "]"
  | .obj fs => String.singleton lbrace ++ stringifyFields fs ++ String.singleton rbrace

/-- Comma-joined serialization of array elements. -/
def stringifyElems : List Json → String
  | [] => ""
  | [j] => Json.stringify j
  | j :: rest => Json.stringify j ++ "," ++ stringifyElems rest

/-- Comma-joined serialization of object members. -/
def stringifyFields : List (String × Json) → String
  | [] => ""
  | [(k, v)] => Json.quoteStr k ++ ":" ++ Json.stringify v
  | (k, v) :: rest => Json.quoteStr k ++ ":" ++ Json.stringify v ++ "," ++ stringifyFields rest

end

/-- Property lookup on a parsed JSON object; with duplicate keys the later
one wins, matching JavaScript `JSON.parse` object semantics. -/
def jsonLookup (fs : List (String × Json)) (k : String) : Option Json :=
  match fs with
  | [] => none
  | (k2, v) :: rest =>
    match jsonLookup rest k with
    | some r => some r
    | none => if k2 = k then some v else none

/-- Read a string-valued property of a JSON object, defaulting to `""`. -/
def jsonGetStr (j : Json) (k : String) : String :=
  match j with
  | .obj fs =>
    match jsonLookup fs k with
    | some (.str s) => s
    | _ => ""
  | _ => ""

/-- Structured contact/intent record extracted from the user query
(`AgentIntent` in types.ts). -/
structure AgentIntent where
  event : String
  location : String
  contactPerson : String
  phone : String
deriving DecidableEq

/-- A discovered reference link (`SearchResult` in types.ts). -/
structure SearchResult where
  title : String
  url : String
deriving DecidableEq

/-- A structured lead record (`AgentLead` in types.ts). -/
structure AgentLead where
  lawFirm : String
  contact : String
  phone : String
  address : String
  sourceUrl : String
deriving DecidableEq

/-- The normalized search envelope returned by `searchWithGrounding`
(geminiService.ts line 517).  The optional JavaScript fields `error` and
`errorMessage` are modelled with defaults `false` and `""`. -/
structure RawSearchPayload where
  text : String
  links : List SearchResult
  error : Bool
  errorMessage : String
deriving DecidableEq

/-- Provider credentials read by the service module (module-level state in
geminiService.ts lines 13 and 17); `""` models a missing key. -/
structure Config where
  serpApiKey : String
  geminiApiKey : String
deriving DecidableEq

/-- The message thrown by `getGeminiClient` when no Gemini key is configured
(geminiService.ts line 22). -/
def geminiKeyMissingMsg : String :=
  "Gemini API Key is missing. Please set it in Settings or configure APP_KEY/API_KEY in Vercel."

/-- Model of `getMaskedGeminiKey` (geminiService.ts lines 28-32). -/
def getMaskedGeminiKey (k : String) : String :=
  if k = "" then "No Key"
  else if k.length < 8 then "****"
  else "..." ++ (⟨k.data.drop (k.length - 4)⟩ : String)

/-- Retryable-failure test of `retryWithBackoff` (geminiService.ts lines
79-81): the lower-cased message is scanned for rate-limit and overload
markers. -/
def isRetryableMsg (msg : String) : Bool :=
  let m := msg.toLower
  hasSubstr m "429" || hasSubstr m "resource exhausted" || hasSubstr m "quota exceeded" ||
  hasSubstr m "503" || hasSubstr m "overloaded"

/-- Observable outcome of one `retryWithBackoff` run: final result, the
sequence of waits performed, and how many times the wrapped operation was
invoked. -/
structure RetryRun (α : Type) where
  result : Except String α
  waits : List Nat
  calls : Nat

/-- Recursion of `retryWithBackoff` (geminiService.ts lines 75-91): `fn k`
is the outcome of the `k`-th invocation of the wrapped operation; on a
retryable failure with budget left it waits `delay` ms and recurses with the
budget decremented and the delay doubled, else it propagates the error. -/
def retryGo {α : Type} (fn : Nat → Except String α) : Nat → Nat → Nat → RetryRun α
  | k, retries, delay =>
    match fn k, retries with
    | .ok v, _ => ⟨.ok v, [], 1⟩
    | .error e, 0 => ⟨.error e, [], 1⟩
    | .error e, r + 1 =>
      if isRetryableMsg e then
        let rest := retryGo fn (k + 1) r (delay * 2)
        ⟨rest.result, delay :: rest.waits, rest.calls + 1⟩
      else ⟨.error e, [], 1⟩

/-- Model of `retryWithBackoff` with explicit budget and starting delay. -/
def retryWithBackoff {α : Type} (fn : Nat → Except String α) (retries delay : Nat) : RetryRun α :=
  retryGo fn 0 retries delay

/-- `retryWithBackoff` at its default arguments (`retries = 5`,
`delay = 3000`). -/
def retryWithBackoffDefaults {α : Type} (fn : Nat → Except String α) : RetryRun α :=
  retryWithBackoff fn 5 3000

/-- Grounding citation chunk of a Gemini grounded-search response; `uri = ""`
models an absent `chunk.web?.uri`. -/
structure GroundingChunk where
  uri : String
  title : String
deriving DecidableEq

/-- Outcome data of the Gemini grounded-search call (text plus grounding
metadata chunks). -/
structure GroundedResp where
  text : String
  chunkLinks : List GroundingChunk
deriving DecidableEq

/-- Post-retry outcomes of the three provider calls `searchWithGrounding`
can issue: the SerpApi fetch, the grounded Gemini call, and the ungrounded
fallback generation (its response text, `""` modelling an empty
`fallbackResponse.text`). -/
structure SearchEnv where
  serpOutcome : Except String Json
  groundedOutcome : Except String GroundedResp
  fallbackOutcome : Except String String

/-- The search strategies of `searchWithGrounding`, in source order. -/
inductive Strategy where
  | serp
  | grounded
  | fallbackGen
deriving DecidableEq

/-- Link extraction of the SerpApi branch (geminiService.ts lines 524-526):
only `organic_results` entries are mapped, taking `title` and `link`. -/
def serpLinks (data : Json) : List SearchResult :=
  match data with
  | .obj fs =>
    match jsonLookup fs "organic_results" with
    | some (.arr rs) => rs.map (fun r => ⟨jsonGetStr r "title", jsonGetStr r "link"⟩)
    | _ => []
  | _ => []

/-- Link extraction from grounding metadata (geminiService.ts lines 550-554):
chunks with a truthy `web.uri` become links, with `"Source"` as the default
title. -/
def groundedLinks (cs : List GroundingChunk) : List SearchResult :=
  (cs.filter (fun c => c.uri ≠ "")).map
    (fun c => ⟨if c.title = "" then "Source" else c.title, c.uri⟩)

/-- The ungrounded Gemini fallback (geminiService.ts lines 561-585): a
successful generation is returned with a system-warning banner and no links;
if it also fails, the error envelope carries the masked key suffix. -/
def geminiFallbackRun (cfg : Config) (env : SearchEnv) :
    Except String RawSearchPayload × List Strategy :=
  match env.fallbackOutcome with
  | .ok t =>
    (.ok ⟨"[SYSTEM WARNING: Search Quota Exceeded. Showing AI Knowledge instead.]\n\n" ++
        (if t = "" then "No suggestions available." else t), [], false, ""⟩,
      [.grounded, .fallbackGen])
  | .error fe =>
    (.ok ⟨"", [], true,
        "Both Search and Fallback failed. Key: " ++ getMaskedGeminiKey cfg.geminiApiKey ++
        ". Error: " ++ fe⟩,
      [.grounded, .fallbackGen])

/-- Model of `searchWithGrounding` (geminiService.ts lines 517-587), paired
with the list of strategies actually attempted.  With a SerpApi key the
SerpApi branch alone runs; otherwise `getGeminiClient()` is evaluated
outside any `try`, so a missing Gemini key propagates as a thrown error;
otherwise the grounded call runs with the ungrounded fallback behind it
(an empty grounded `response.text` is thrown and also reaches the
fallback). -/
def searchWithGroundingRun (cfg : Config) (env : SearchEnv) (_query : String) :
    Except String RawSearchPayload × List Strategy :=
  if cfg.serpApiKey ≠ "" then
    match env.serpOutcome with
    | .ok data =>
      (.ok ⟨"SerpApi Results: " ++ jsTruncate (Json.stringify data) 5000, serpLinks data, false, ""⟩,
        [.serp])
    | .error e => (.ok ⟨"", [], true, "SerpApi Error: " ++ e⟩, [.serp])
  else if cfg.geminiApiKey = "" then
    (.error geminiKeyMissingMsg, [])
  else
    match env.groundedOutcome with
    | .ok resp =>
      if resp.text = "" then geminiFallbackRun cfg env
      else (.ok ⟨resp.text, groundedLinks resp.chunkLinks, false, ""⟩, [.grounded])
    | .error _ => geminiFallbackRun cfg env

/-- The result component of `searchWithGrounding`: `Except.error` models an
exception escaping to the caller. -/
def searchWithGrounding (cfg : Config) (env : SearchEnv) (query : String) :
    Except String RawSearchPayload :=
  (searchWithGroundingRun cfg env query).1

/-- Workflow status values of the KnowledgeBase component
(KnowledgeBase.tsx line 20). -/
inductive AgentStatus where
  | idle
  | identifying
  | searching
  | processing
  | complete
  | error
deriving DecidableEq

/-- Run-scoped component state of KnowledgeBase (lines 20-28); the submitted
query is passed to `handleAgentSearch` as an argument.  `timerRunning` models
whether the elapsed-time interval timer is live, and `processingProgress`
uses exact rationals in place of JavaScript floats (no claim inspects its
value). -/
structure AgentState where
  agentStatus : AgentStatus
  intentData : Option AgentIntent
  searchResults : List SearchResult
  searchSummary : String
  generatedLeads : List AgentLead
  processingTime : Nat
  processingProgress : ℚ
  errorMessage : String
  timerRunning : Bool

/-- Post-retry outcomes of the provider calls issued by the pipeline beyond
search: the intent-extraction call, and the structuring stream (the chunk
texts delivered, plus `some e` when the stream throws after those chunks). -/
structure PipelineEnv where
  intentOutcome : Except String AgentIntent
  searchEnv : SearchEnv
  streamChunks : List String
  streamThrow : Option String

/-- Which provider stages ran during one `handleAgentSearch` call;
`structureArg = some t` records that `structureLeadsStream` was invoked
with raw text `t`. -/
structure RunTrace where
  intentCalled : Bool
  searchCalled : Bool
  structureArg : Option String
deriving DecidableEq

/-- Model of `extractAgentIntent` (geminiService.ts lines 490-514): the
whole body runs in a `try` whose `catch` rethrows `Intent Error: ...`, so a
missing Gemini key or any call failure surfaces as that wrapped error. -/
def extractAgentIntent (cfg : Config) (env : PipelineEnv) : Except String AgentIntent :=
  if cfg.geminiApiKey = "" then .error ("Intent Error: " ++ geminiKeyMissingMsg)
  else
    match env.intentOutcome with
    | .ok i => .ok i
    | .error e => .error ("Intent Error: " ++ (if e = "" then "API Failure" else e))

/-- Model of the `structureLeadsStream` generator (geminiService.ts lines
590-625) as the pair (chunks yielded, thrown error): blank or
configuration-error raw text ends the generator immediately; otherwise a
missing Gemini key, or a provider failure, is rethrown wrapped in
`Structuring Error: ...`; only non-empty `chunk.text` values are yielded. -/
def structureLeadsStream (cfg : Config) (env : PipelineEnv) (rawText : String) :
    List String × Option String :=
  if rawText = "" || listPrefix "Configuration Error".data rawText.data then ([], none)
  else if cfg.geminiApiKey = "" then
    ([], some ("Structuring Error: " ++ geminiKeyMissingMsg))
  else
    (env.streamChunks.filter (fun c => c ≠ ""),
      env.streamThrow.map (fun e => "Structuring Error: " ++ e))

/-- Search phrase built by the orchestrator (KnowledgeBase.tsx line 91). -/
def builtSearchQuery (i : AgentIntent) : String :=
  i.event ++ " lawyer in " ++ i.location ++ " " ++
    (if i.contactPerson ≠ "-" then i.contactPerson else "")

/-- Error-message mapping of the orchestrator `catch` block
(KnowledgeBase.tsx lines 143-149). -/
def catchErrorMessage (geminiKey rawMsg : String) : String :=
  if hasSubstr rawMsg "429" || hasSubstr rawMsg "Resource exhausted" ||
      hasSubstr rawMsg "Quota exceeded" then
    "API Quota Exceeded. Using Key ending in " ++ getMaskedGeminiKey geminiKey ++
      ". The search tool is heavily rate-limited even on paid tiers. Please try again in 1 minute."
  else if rawMsg = "" then "An unexpected error occurred during the workflow."
  else rawMsg

/-- Run-scoped state reset at the start of a run (KnowledgeBase.tsx lines
66-78), including the freshly started interval timer. -/
def resetState (s : AgentState) : AgentState :=
  { s with
    agentStatus := .identifying, intentData := none, searchResults := [],
    searchSummary := "", generatedLeads := [], processingTime := 0,
    processingProgress := 0, errorMessage := "", timerRunning := true }

/-- State produced when the orchestrator `catch` block fires: error status,
mapped message, timer cleared (KnowledgeBase.tsx lines 140-152). -/
def failState (cfg : Config) (s : AgentState) (msg : String) : AgentState :=
  { s with
    agentStatus := .error, errorMessage := catchErrorMessage cfg.geminiApiKey msg,
    timerRunning := false }

/-- Progress accumulation over streamed chunks (KnowledgeBase.tsx line 114). -/
def foldProgress (p0 : ℚ) (chunks : List String) : ℚ :=
  chunks.foldl (fun p c => min (p + (c.length : ℚ) / 15) 98) p0

/-- Markdown-fence stripping of the accumulated stream text, the source
regex replace of KnowledgeBase.tsx line 119 scanned left to right with the
alternation preference of the pattern. -/
def stripFencesL : Nat → List Char → List Char
  | 0, _ => []
  | _ + 1, [] => []
  | fuel + 1, c :: rest =>
    if listPrefix "```json\n".data (c :: rest) then stripFencesL fuel ((c :: rest).drop 8)
    else if listPrefix "```json".data (c :: rest) then stripFencesL fuel ((c :: rest).drop 7)
    else if listPrefix "\n```".data (c :: rest) then stripFencesL fuel ((c :: rest).drop 4)
    else if listPrefix "```".data (c :: rest) then stripFencesL fuel ((c :: rest).drop 3)
    else c :: stripFencesL fuel rest

/-- `accumulatedText.replace(/```json\n?|\n?```/g, '').trim()`
(KnowledgeBase.tsx line 119). -/
def cleanFences (s : String) : String :=
  jsTrim ⟨stripFencesL (s.data.length + 1) s.data⟩

/-- The greedy regex match `/\[[\s\S]*\]/` (KnowledgeBase.tsx line 127):
the substring from the first `[` to the last `]`, when the latter comes
after the former. -/
def bracketMatch (s : String) : Option String :=
  match s.data.indexOf? '[', s.data.reverse.indexOf? ']' with
  | some i, some rj =>
    let j := s.data.length - 1 - rj
    if i < j then some ⟨(s.data.drop i).take (j - i + 1)⟩ else none
  | _, _ => none

/-- Conversion of a parsed JSON value into the lead list stored by
`setGeneratedLeads`: a top-level array of objects with the five string
fields (missing or non-string fields read as `""`, matching the
`lead.x || ''` guards at the use sites). -/
def jsonToLeads (j : Json) : List AgentLead :=
  match j with
  | .arr xs => xs.map (fun x =>
      ⟨jsonGetStr x "lawFirm", jsonGetStr x "contact", jsonGetStr x "phone",
        jsonGetStr x "address", jsonGetStr x "sourceUrl"⟩)
  | _ => []

/-- The lead-parsing block after stream completion (KnowledgeBase.tsx lines
118-135): strict `JSON.parse` on the fence-stripped text when non-empty; on
a parse exception, regex-extract a bracketed substring of the original
accumulated text and parse that; every remaining failure leaves the lead
list untouched. -/
def parseStage (acc : String) (s : AgentState) : AgentState :=
  let clean := cleanFences acc
  if clean = "" then s
  else
    match Json.parse clean with
    | some j => { s with generatedLeads := jsonToLeads j }
    | none =>
      match bracketMatch acc with
      | some sub =>
        match Json.parse sub with
        | some j => { s with generatedLeads := jsonToLeads j }
        | none => s
      | none => s

/-- Structuring stage (KnowledgeBase.tsx lines 105-138): stream the
structurer, accumulate chunks and progress, then either divert to the error
state on a stream exception or parse the buffer and complete. -/
def processStage (cfg : Config) (env : PipelineEnv) (text : String) (s5 : AgentState) :
    AgentState × RunTrace :=
  let res := structureLeadsStream cfg env text
  let s6 := { s5 with processingProgress := foldProgress s5.processingProgress res.1 }
  match res.2 with
  | some e => (failState cfg s6 e, ⟨true, true, some text⟩)
  | none =>
    ({ parseStage (String.join res.1) s6 with
        processingProgress := 100, agentStatus := .complete, timerRunning := false },
      ⟨true, true, some text⟩)

/-- Search stage (KnowledgeBase.tsx lines 88-105): store links and summary;
an `error: true` payload diverts the run to the error state with the timer
cleared and the structuring stage never invoked. -/
def searchStage (cfg : Config) (env : PipelineEnv) (intent : AgentIntent) (s2 : AgentState) :
    AgentState × RunTrace :=
  let s3 := { s2 with agentStatus := .searching }
  match searchWithGrounding cfg env.searchEnv (builtSearchQuery intent) with
  | .error e => (failState cfg s3 e, ⟨true, true, none⟩)
  | .ok payload =>
    let s4 := { s3 with searchResults := payload.links, searchSummary := payload.text }
    if payload.error then
      ({ s4 with
          agentStatus := .error,
          errorMessage := if payload.errorMessage = "" then "Search Tool Failed."
            else payload.errorMessage,
          timerRunning := false }, ⟨true, true, none⟩)
    else processStage cfg env payload.text { s4 with agentStatus := .processing }

/-- Model of `handleAgentSearch` (KnowledgeBase.tsx lines 63-153): guard on a
blank query, reset run state, then run intent extraction, search, and
structuring in sequence, with the orchestrator `catch`/`finally` mapped into
`failState`. -/
def handleAgentSearch (cfg : Config) (env : PipelineEnv) (query : String) (s : AgentState) :
    AgentState × RunTrace :=
  if jsBlank query then (s, ⟨false, false, none⟩)
  else
    match extractAgentIntent cfg env with
    | .error e => (failState cfg (resetState s) e, ⟨true, false, none⟩)
    | .ok intent => searchStage cfg env intent { resetState s with intentData := some intent }

/-- `lead.x.replace(/"/g, '""')`: double every quote character
(KnowledgeBase.tsx lines 38-42). -/
def escQL : List Char → List Char
  | [] => []
  | c :: t => if c = '"' then '"' :: '"' :: escQL t else c :: escQL t

/-- A CSV field as exported: quote-wrapped with embedded quotes doubled. -/
def csvEscField (s : String) : String := ⟨'"' :: (escQL s.data ++ ['"'])⟩

/-- One exported CSV row for a lead (KnowledgeBase.tsx lines 36-45). -/
def csvRow (l : AgentLead) : String :=
  String.intercalate ","
    [csvEscField l.lawFirm, csvEscField l.contact, csvEscField l.phone,
      csvEscField l.address, csvEscField l.sourceUrl]

/-- The exported header row (KnowledgeBase.tsx lines 33-34). -/
def csvHeaders : String :=
  String.intercalate "," ["Firm Name", "Contact Person", "Phone Number", "Address", "Source URL"]

/-- The UTF-8 byte-order mark prefix `'﻿'` (KnowledgeBase.tsx line 32). -/
def bomStr : String := ⟨[Char.ofNat 0xFEFF]⟩

/-- Model of `handleExportCsv` (KnowledgeBase.tsx lines 30-58): `none` when
the lead list is empty (early return, nothing exported), otherwise the full
text of the downloaded file. -/
def handleExportCsv (leads : List AgentLead) : Option String :=
  if leads = [] then none
  else some (bomStr ++ String.intercalate "\n" (csvHeaders :: leads.map csvRow))

/-- Reader side of one quoted CSV field for a standard (RFC 4180) CSV
parser, after the opening quote: doubled quotes collapse to one, a lone
closing quote ends the field, and an unterminated field is rejected. -/
def csvUnqGo : List Char → Option (List Char)
  | [] => none
  | c :: rest =>
    if c = '"' then
      match rest with
      | [] => some []
      | c2 :: rest2 =>
        if c2 = '"' then (csvUnqGo rest2).map (fun t => '"' :: t) else none
    else (csvUnqGo rest).map (fun t => c :: t)

/-- Parse a complete quoted CSV field as a standard CSV reader would. -/
def csvReadQuoted (s : String) : Option String :=
  match s.data with
  | c :: rest => if c = '"' then (csvUnqGo rest).map (fun l => (⟨l⟩ : String)) else none
  | [] => none

/-- The grounded Gemini strategy failed: either the call threw (post-retry)
or it returned an empty `response.text`, which line 548 of geminiService.ts
turns into a thrown error. -/
def groundedFailed (env : SearchEnv) : Prop :=
  match env.groundedOutcome with
  | .ok r => r.text = ""
  | .error _ => True

/-- A quiescent component state, as rendered before any run. -/
def sampleState : AgentState := ⟨.idle, none, [], "", [], 0, 0, "", false⟩

/-- Sample intent for the end-to-end witnesses. -/
def sampleIntent : AgentIntent := ⟨"Divorce", "Beijing", "-", "-"⟩

/-- Configuration with both a SerpApi key and a Gemini key. -/
def cfgSerp : Config := ⟨"sk", "gemkey12345"⟩

/-- Configuration with only a Gemini key. -/
def cfgGem : Config := ⟨"", "gemkey12345"⟩

/-- Pipeline environment in which the SerpApi call fails. -/
def envSerpFail : PipelineEnv :=
  ⟨.ok sampleIntent, ⟨.error "boom", .error "x", .error "x"⟩, [], none⟩

/-- Pipeline environment in which the SerpApi call succeeds but the
structuring stream yields text with no JSON array in it. -/
def envNoJson : PipelineEnv :=
  ⟨.ok sampleIntent, ⟨.ok (Json.str "hello"), .error "x", .error "x"⟩, ["no json here"], none⟩

/-- SerpApi response carrying one local-business result and one organic
result, used to exercise the SerpApi branch. -/
def serpDataSample : Json :=
  Json.obj
    [("local_results", Json.arr
        [Json.obj [("title", Json.str "Acme Law"), ("phone", Json.str "123"),
          ("address", Json.str "1 A St"), ("rating", Json.num "4.5")]]),
      ("organic_results", Json.arr
        [Json.obj [("title", Json.str "Org Result"), ("link", Json.str "http://org.example")]])]

/-- A wrapped operation that always fails with a retryable message. -/
def retryCexFn : Nat → Except String Nat := fun _ => .error "429"

deriving instance DecidableEq for Except

/-- Helper for the retry claims: along any run, consecutive waits double,
consecutive waits strictly increase (for a positive starting delay), and the
first wait, if any, equals the starting delay. -/
theorem retryGo_waits_chain {α : Type} (fn : Nat → Except String α) :
    ∀ (retries k delay : Nat), 0 < delay →
      List.Chain' (fun a b => b = 2 * a) (retryGo fn k retries delay).waits ∧
      List.Chain' (fun a b : Nat => a < b) (retryGo fn k retries delay).waits ∧
      ∀ w ∈ (retryGo fn k retries delay).waits.head?, w = delay := by
  intro retries
  induction retries with
  | zero =>
    intro k delay hd
    unfold retryGo
    cases fn k <;> simp
  | succ r ih =>
    intro k delay hd
    unfold retryGo
    cases hf : fn k with
    | ok v => simp
    | error e =>
      by_cases hr : isRetryableMsg e
      · simp only [hr, if_true]
        obtain ⟨c1, c2, hh⟩ := ih (k + 1) (delay * 2) (by omega)
        refine ⟨?_, ?_, ?_⟩
        · rw [List.chain'_cons']
          exact ⟨fun b hb => by rw [hh b hb]; ring, c1⟩
        · rw [List.chain'_cons']
          refine ⟨fun b hb => ?_, c2⟩
          rw [hh b hb]
          omega
        · simp
      · simp [hr]

/-- C7: for every fixed positive starting delay and retry budget, each wait
performed by `retryWithBackoff` on consecutive retryable failures is double
the previous one, so the wait sequence is strictly increasing (in
particular non-decreasing). -/
theorem retryWithBackoff_waits_double {α : Type} (fn : Nat → Except String α)
    (retries delay : Nat) (hd : 0 < delay) :
    List.Chain' (fun a b => b = 2 * a) (retryWithBackoff fn retries delay).waits ∧
    List.Chain' (fun a b : Nat => a < b) (retryWithBackoff fn retries delay).waits :=
  ⟨(retryGo_waits_chain fn retries 0 delay hd).1,
    (retryGo_waits_chain fn retries 0 delay hd).2.1⟩

/-- Witness for C7 at budget 3 and starting delay 2000 with every attempt
failing retryably (waits 2000, 4000, 8000). -/
theorem retryWithBackoff_waits_double_witness :
    0 < 2000 ∧
    (List.Chain' (fun a b => b = 2 * a) (retryWithBackoff retryCexFn 3 2000).waits ∧
      List.Chain' (fun a b : Nat => a < b) (retryWithBackoff retryCexFn 3 2000).waits) :=
  ⟨by decide, retryWithBackoff_waits_double retryCexFn 3 2000 (by decide)⟩

/-- Helper for C9: the wrapped operation is invoked at most `retries + 1`
times. -/
theorem retryGo_calls_le {α : Type} (fn : Nat → Except String α) :
    ∀ (retries k delay : Nat), (retryGo fn k retries delay).calls ≤ retries + 1 := by
  intro retries
  induction retries with
  | zero =>
    intro k delay
    unfold retryGo
    cases fn k <;> simp
  | succ r ih =>
    intro k delay
    unfold retryGo
    cases hf : fn k with
    | ok v => simp
    | error e =>
      by_cases hr : isRetryableMsg e
      · simp only [hr, if_true]
        have := ih (k + 1) (delay * 2)
        omega
      · simp [hr]

/-- C9: `retryWithBackoff` always terminates, invoking the wrapped operation
at most `retries + 1` times, and at most 6 times under the default budget
of 5 retries. -/
theorem retryWithBackoff_call_bound {α : Type} (fn : Nat → Except String α)
    (retries delay : Nat) :
    (retryWithBackoff fn retries delay).calls ≤ retries + 1 ∧
    (retryWithBackoffDefaults fn).calls ≤ 6 :=
  ⟨retryGo_calls_le fn retries 0 delay, retryGo_calls_le fn 5 0 3000⟩

/-- Helper for C8: reading back an escaped field body (doubled quotes plus
the closing quote) recovers the original character list. -/
theorem csvUnqGo_escQL : ∀ l : List Char, csvUnqGo (escQL l ++ ['"']) = some l := by
  intro l
  induction l with
  | nil => rfl
  | cons c t ih =>
    by_cases hc : c = '"'
    · subst hc
      simp [escQL, csvUnqGo, ih]
    · simp only [escQL, hc, if_false]
      unfold csvUnqGo
      simp [hc, ih]

/-- C8: for every non-empty lead list the exported CSV string starts with the
UTF-8 byte-order mark, and every field is exported quote-wrapped with
embedded quotes doubled so that a standard CSV reader recovers exactly the
original string (in particular for `Smith "Law" Co`). -/
theorem handleExportCsv_escaping (leads : List AgentLead) (h : leads ≠ []) :
    (∃ body, handleExportCsv leads = some (bomStr ++ body)) ∧
    ∀ s : String, csvReadQuoted (csvEscField s) = some s := by
  constructor
  · unfold handleExportCsv
    rw [if_neg h]
    exact ⟨_, rfl⟩
  · intro s
    unfold csvReadQuoted csvEscField
    simp [csvUnqGo_escQL]

/-- Witness for C8 on a one-lead list whose firm name is `Smith "Law" Co`. -/
theorem handleExportCsv_escaping_witness :
    (∃ body, handleExportCsv [⟨"Smith \"Law\" Co", "-", "-", "-", "-"⟩] =
      some (bomStr ++ body)) ∧
    ∀ s : String, csvReadQuoted (csvEscField s) = some s :=
  handleExportCsv_escaping [⟨"Smith \"Law\" Co", "-", "-", "-", "-"⟩]
    (List.cons_ne_nil _ _)

/-- C1 counterexample: with no SerpApi key configured and the Gemini key
missing, `searchWithGrounding` does not return the error envelope — the
`getGeminiClient()` exception (raised outside any `try` at line 534 of
geminiService.ts) propagates to the caller. -/
theorem searchWithGrounding_missing_key_throws :
    searchWithGrounding ⟨"", ""⟩ ⟨.error "x", .error "x", .error "x"⟩ "any query" =
      .error "Gemini API Key is missing. Please set it in Settings or configure APP_KEY/API_KEY in Vercel." := by
  rfl

/-- C1 (amended): provided some configured strategy has its key (a SerpApi
key, or else a Gemini key), `searchWithGrounding` always returns the
normalized envelope instead of throwing; when the envelope reports an error,
its message names SerpApi on the SerpApi path, and on the Gemini path (both
grounded search and fallback failed) it contains the masked key suffix. -/
theorem searchWithGrounding_envelope (cfg : Config) (env : SearchEnv) (q : String)
    (h : cfg.serpApiKey = "" → cfg.geminiApiKey ≠ "") :
    ∃ p, searchWithGrounding cfg env q = .ok p ∧
      (p.error = true →
        (cfg.serpApiKey ≠ "" → ∃ e, p.errorMessage = "SerpApi Error: " ++ e) ∧
        (cfg.serpApiKey = "" → ∃ e, p.errorMessage =
          "Both Search and Fallback failed. Key: " ++ getMaskedGeminiKey cfg.geminiApiKey ++
            ". Error: " ++ e)) := by
  unfold searchWithGrounding searchWithGroundingRun geminiFallbackRun
  by_cases hserp : cfg.serpApiKey = ""
  · have hg := h hserp
    rw [if_neg (fun hk => hk hserp), if_neg hg]
    cases env.groundedOutcome with
    | ok resp =>
      dsimp only
      by_cases ht : resp.text = ""
      · rw [if_pos ht]
        cases env.fallbackOutcome with
        | ok t => exact ⟨_, rfl, fun hp => Bool.noConfusion hp⟩
        | error fe =>
          exact ⟨_, rfl, fun _ => ⟨fun hne => absurd hserp hne, fun _ => ⟨fe, rfl⟩⟩⟩
      · rw [if_neg ht]
        exact ⟨_, rfl, fun hp => Bool.noConfusion hp⟩
    | error e =>
      dsimp only
      cases env.fallbackOutcome with
      | ok t => exact ⟨_, rfl, fun hp => Bool.noConfusion hp⟩
      | error fe =>
        exact ⟨_, rfl, fun _ => ⟨fun hne => absurd hserp hne, fun _ => ⟨fe, rfl⟩⟩⟩
  · rw [if_pos hserp]
    cases env.serpOutcome with
    | ok data => exact ⟨_, rfl, fun hp => Bool.noConfusion hp⟩
    | error e =>
      exact ⟨_, rfl, fun _ => ⟨fun _ => ⟨e, rfl⟩, fun h0 => absurd h0 hserp⟩⟩

/-- Witness for C1 (amended): only a Gemini key configured, grounded search
and fallback both failing. -/
theorem searchWithGrounding_envelope_witness :
    ∃ p, searchWithGrounding cfgGem ⟨.error "x", .error "429 quota", .error "500 fail"⟩ "q" =
        .ok p ∧
      (p.error = true →
        (cfgGem.serpApiKey ≠ "" → ∃ e, p.errorMessage = "SerpApi Error: " ++ e) ∧
        (cfgGem.serpApiKey = "" → ∃ e, p.errorMessage =
          "Both Search and Fallback failed. Key: " ++ getMaskedGeminiKey cfgGem.geminiApiKey ++
            ". Error: " ++ e)) :=
  searchWithGrounding_envelope cfgGem ⟨.error "x", .error "429 quota", .error "500 fail"⟩ "q"
    (fun _ => by decide)

/-- C4 counterexample: with a SerpApi key configured, a SerpApi failure is
reported as the error envelope immediately — only the SerpApi strategy is
attempted, with no Gemini fallback before the failure is reported. -/
theorem serp_failure_skips_gemini_fallback :
    searchWithGroundingRun cfgSerp
        ⟨.error "boom", .ok ⟨"grounded text", []⟩, .ok "fallback text"⟩ "q" =
      (.ok ⟨"", [], true, "SerpApi Error: boom"⟩, [Strategy.serp]) := by
  rfl

/-- C4 (amended): only on the Gemini path (no SerpApi key configured) does a
failure of the primary grounded strategy trigger the ungrounded fallback
before failure is reported; with a SerpApi key configured, its failure
aborts search with the error envelope and no fallback attempt. -/
theorem gemini_grounded_failure_falls_back (cfg : Config) (env : SearchEnv) (q : String)
    (h1 : cfg.serpApiKey = "") (h2 : cfg.geminiApiKey ≠ "") (h3 : groundedFailed env) :
    (searchWithGroundingRun cfg env q).2 = [Strategy.grounded, Strategy.fallbackGen] := by
  unfold searchWithGroundingRun geminiFallbackRun
  simp only [h1, ne_eq, not_true_eq_false, if_false, if_neg h2]
  unfold groundedFailed at h3
  cases hg : env.groundedOutcome with
  | ok r =>
    rw [hg] at h3
    simp only [h3, if_true]
    cases env.fallbackOutcome <;> simp
  | error e =>
    cases env.fallbackOutcome <;> simp

/-- Witness for C4 (amended): Gemini-only configuration, grounded call
failing with a quota error, fallback generation succeeding. -/
theorem gemini_grounded_failure_falls_back_witness :
    (searchWithGroundingRun cfgGem ⟨.error "x", .error "429 quota", .ok "advice"⟩ "q").2 =
      [Strategy.grounded, Strategy.fallbackGen] :=
  gemini_grounded_failure_falls_back cfgGem ⟨.error "x", .error "429 quota", .ok "advice"⟩ "q"
    (by decide) (by decide) trivial

set_option maxRecDepth 2000 in
/-- C5 counterexample: with a SerpApi key configured and a response carrying
a local-business result (`Acme Law`, with phone, address and rating), the
payload text is the raw `JSON.stringify` serialization of the whole response
(behind a fixed prefix), not a digest, and the links contain only the
organic result — the local result is never parsed or mapped. -/
theorem serp_text_is_raw_json :
    searchWithGrounding cfgSerp ⟨.ok serpDataSample, .error "x", .error "x"⟩ "q" =
      .ok ⟨"SerpApi Results: " ++ Json.stringify serpDataSample,
        [⟨"Org Result", "http://org.example"⟩], false, ""⟩ := by
  rfl

/-- C5 (amended): when a SerpApi key is configured and the SerpApi call
succeeds, the payload text is `SerpApi Results: ` followed by the raw JSON
serialization of the response truncated to 5000 characters, and the links
are exactly the `organic_results` entries mapped through their `title` and
`link` fields; local-business results receive no dedicated treatment. -/
theorem serp_strategy_organic_only (cfg : Config) (env : SearchEnv) (q : String)
    (data : Json) (fs : List (String × Json)) (os : List Json)
    (hk : cfg.serpApiKey ≠ "") (hs : env.serpOutcome = .ok data)
    (hd : data = Json.obj fs)
    (ho : jsonLookup fs "organic_results" = some (Json.arr os)) :
    searchWithGrounding cfg env q =
      .ok ⟨"SerpApi Results: " ++ jsTruncate (Json.stringify data) 5000,
        os.map (fun r => ⟨jsonGetStr r "title", jsonGetStr r "link"⟩), false, ""⟩ := by
  unfold searchWithGrounding searchWithGroundingRun serpLinks
  subst hd
  simp [hk, hs, ho]

/-- Witness for C5 (amended) at the sample SerpApi response. -/
theorem serp_strategy_organic_only_witness :
    searchWithGrounding cfgSerp ⟨.ok serpDataSample, .error "x", .error "x"⟩ "q" =
      .ok ⟨"SerpApi Results: " ++ jsTruncate (Json.stringify serpDataSample) 5000,
        [Json.obj [("title", Json.str "Org Result"), ("link", Json.str "http://org.example")]].map
          (fun r => ⟨jsonGetStr r "title", jsonGetStr r "link"⟩), false, ""⟩ :=
  serp_strategy_organic_only cfgSerp ⟨.ok serpDataSample, .error "x", .error "x"⟩ "q"
    serpDataSample
    [("local_results", Json.arr
        [Json.obj [("title", Json.str "Acme Law"), ("phone", Json.str "123"),
          ("address", Json.str "1 A St"), ("rating", Json.num "4.5")]]),
      ("organic_results", Json.arr
        [Json.obj [("title", Json.str "Org Result"), ("link", Json.str "http://org.example")]])]
    [Json.obj [("title", Json.str "Org Result"), ("link", Json.str "http://org.example")]]
    (by decide) rfl rfl rfl

/-- C10: a blank (empty or whitespace-only) query makes `handleAgentSearch`
return immediately: the component state is entirely unchanged and no
provider call is issued. -/
theorem blank_query_is_noop (cfg : Config) (env : PipelineEnv) (q : String) (s : AgentState)
    (h : jsBlank q = true) :
    handleAgentSearch cfg env q s = (s, ⟨false, false, none⟩) := by
  unfold handleAgentSearch
  simp [h]

/-- Witness for C10 at the whitespace-only query "   ". -/
theorem blank_query_is_noop_witness :
    handleAgentSearch cfgSerp envSerpFail "   " sampleState =
      (sampleState, ⟨false, false, none⟩) :=
  blank_query_is_noop cfgSerp envSerpFail "   " sampleState rfl

/-- C3: for every non-blank query, once all awaited provider calls have
settled the workflow state is exactly `complete` or `error` — never a
non-terminal state. -/
theorem handleAgentSearch_terminal (cfg : Config) (env : PipelineEnv) (q : String)
    (s : AgentState) (h : jsBlank q = false) :
    (handleAgentSearch cfg env q s).1.agentStatus = AgentStatus.complete ∨
    (handleAgentSearch cfg env q s).1.agentStatus = AgentStatus.error := by
  unfold handleAgentSearch
  simp only [h, Bool.false_eq_true, if_false]
  cases extractAgentIntent cfg env with
  | error e => right; rfl
  | ok intent =>
    dsimp only
    unfold searchStage
    cases searchWithGrounding cfg env.searchEnv (builtSearchQuery intent) with
    | error e => right; rfl
    | ok p =>
      dsimp only
      by_cases hp : p.error = true
      · rw [if_pos hp]
        right; rfl
      · rw [if_neg hp]
        unfold processStage
        dsimp only
        cases (structureLeadsStream cfg env p.text).2 with
        | some e => right; rfl
        | none => left; rfl

/-- Witness for C3 at a concrete run (SerpApi failure ending in `error`). -/
theorem handleAgentSearch_terminal_witness :
    (handleAgentSearch cfgSerp envSerpFail "Divorce lawyer in Beijing" sampleState).1.agentStatus =
        AgentStatus.complete ∨
    (handleAgentSearch cfgSerp envSerpFail "Divorce lawyer in Beijing" sampleState).1.agentStatus =
        AgentStatus.error :=
  handleAgentSearch_terminal cfgSerp envSerpFail "Divorce lawyer in Beijing" sampleState rfl

/-- C2: when the search stage settles with a payload whose `error` flag is
set, the structuring stage is never invoked (so the payload text is not
passed downstream), the run is diverted to the `error` state, and the lead
list stays empty. -/
theorem search_error_skips_structuring (cfg : Config) (env : PipelineEnv) (q : String)
    (s : AgentState) (intent : AgentIntent) (p : RawSearchPayload)
    (hq : jsBlank q = false)
    (hi : extractAgentIntent cfg env = .ok intent)
    (hs : searchWithGrounding cfg env.searchEnv (builtSearchQuery intent) = .ok p)
    (hp : p.error = true) :
    (handleAgentSearch cfg env q s).2.structureArg = none ∧
    (handleAgentSearch cfg env q s).1.agentStatus = AgentStatus.error ∧
    (handleAgentSearch cfg env q s).1.generatedLeads = [] := by
  unfold handleAgentSearch searchStage
  simp only [hq, Bool.false_eq_true, if_false, hi, hs]
  rw [if_pos hp]
  exact ⟨rfl, rfl, rfl⟩

/-- Witness for C2: SerpApi configured and failing, so the search stage
returns the error envelope. -/
theorem search_error_skips_structuring_witness :
    (handleAgentSearch cfgSerp envSerpFail "Divorce lawyer in Beijing" sampleState).2.structureArg =
        none ∧
    (handleAgentSearch cfgSerp envSerpFail "Divorce lawyer in Beijing" sampleState).1.agentStatus =
        AgentStatus.error ∧
    (handleAgentSearch cfgSerp envSerpFail "Divorce lawyer in Beijing" sampleState).1.generatedLeads =
        [] :=
  search_error_skips_structuring cfgSerp envSerpFail "Divorce lawyer in Beijing" sampleState
    sampleIntent ⟨"", [], true, "SerpApi Error: boom"⟩ rfl rfl rfl rfl

/-- C6: when the stream settles without throwing but its accumulated text
fails strict JSON parsing after fence stripping and holds no bracketed array
substring at all, the run ends in `complete` with an empty lead list, not in
`error`. -/
theorem unparsable_stream_completes_empty (cfg : Config) (env : PipelineEnv) (q : String)
    (s : AgentState) (intent : AgentIntent) (p : RawSearchPayload) (chunks : List String)
    (hq : jsBlank q = false)
    (hi : extractAgentIntent cfg env = .ok intent)
    (hs : searchWithGrounding cfg env.searchEnv (builtSearchQuery intent) = .ok p)
    (hp : p.error = false)
    (hst : structureLeadsStream cfg env p.text = (chunks, none))
    (hparse : Json.parse (cleanFences (String.join chunks)) = none)
    (hbr : bracketMatch (String.join chunks) = none) :
    (handleAgentSearch cfg env q s).1.agentStatus = AgentStatus.complete ∧
    (handleAgentSearch cfg env q s).1.generatedLeads = [] := by
  unfold handleAgentSearch searchStage processStage
  simp only [hq, Bool.false_eq_true, if_false, hi, hs]
  rw [if_neg (by rw [hp]; exact Bool.false_ne_true)]
  simp only [hst]
  unfold parseStage
  by_cases hc : cleanFences (String.join chunks) = ""
  · rw [if_pos hc]
    refine ⟨?_, ?_⟩ <;> first | rfl | trivial
  · rw [if_neg hc, hparse, hbr]
    refine ⟨?_, ?_⟩ <;> first | rfl | trivial

/-- Witness for C6: SerpApi succeeds, the stream yields only
"no json here", which neither parses nor contains a bracketed array. -/
theorem unparsable_stream_completes_empty_witness :
    (handleAgentSearch cfgSerp envNoJson "Divorce lawyer in Beijing" sampleState).1.agentStatus =
        AgentStatus.complete ∧
    (handleAgentSearch cfgSerp envNoJson "Divorce lawyer in Beijing" sampleState).1.generatedLeads =
        [] :=
  unparsable_stream_completes_empty cfgSerp envNoJson "Divorce lawyer in Beijing" sampleState
    sampleIntent ⟨"SerpApi Results: \"hello\"", [], false, ""⟩ ["no json here"]
    rfl rfl rfl rfl rfl rfl rfl
